import Mathlib

/-!
# Verification of the pypsa-usa network-simplification core

Shallow embedding of the busmap construction, busmap composition, region
filtering, orphan pruning, Voronoi partition wiring and line-length
assignment found in `workflow/scripts/simplify_network.py` and
`workflow/scripts/build_bus_regions.py`.

Modelling conventions:
* pandas `Series` indexed by bus id are association lists `List (String × β)`
  with first-match lookup (after `duplicated(keep="first")` removal the index
  is unique, so first-match lookup agrees with pandas lookup);
* floating-point coordinates and areas are modelled as exact rationals `ℚ`
  (the claims under consideration are about exact algebraic relationships,
  not rounding);
* missing values (`NaN` produced by `Series.map` on an absent key) are
  modelled as `Option.none`;
* external library calls (scipy `Voronoi`, shapely geometry operations,
  `pypsa.geo.haversine_pts`, `get_clustering_from_busmap`) are parameters of
  the embedding: the repository's own code is the wiring around them.
-/

namespace PypsaUsa

/-- First-match lookup in an association list; models a pandas `Series`
lookup / `Series.map` on a single key (`none` models NaN / missing). -/
def lookupFirst {β : Type} (m : List (String × β)) (k : String) : Option β :=
  match m with
  | [] => none
  | p :: rest => if p.1 = k then some p.2 else lookupFirst rest k

/-- Helper for `dedupKeepFirst`: drops every entry whose key was already
seen, scanning left to right.  Models the pandas boolean mask
`~index.duplicated(keep="first")`. -/
def dedupKeepFirstAux (seen : List String) : List (String × String) → List (String × String)
  | [] => []
  | p :: rest =>
    if p.1 ∈ seen then dedupKeepFirstAux seen rest
    else p :: dedupKeepFirstAux (p.1 :: seen) rest

/-- `trafo_map = trafo_map[~trafo_map.index.duplicated(keep="first")]`
(simplify_network.py line 37). -/
def dedupKeepFirst (m : List (String × String)) : List (String × String) :=
  dedupKeepFirstAux [] m

/-- One value-resolution step: if `v` is itself a key of `m`, advance to
`m[v]`, otherwise keep `v`.  Models the pair of lines
`several_trafo_b = trafo_map.isin(trafo_map.index)` and
`trafo_map.loc[several_trafo_b] = trafo_map.loc[several_trafo_b].map(trafo_map)`
(simplify_network.py lines 38–39), evaluated simultaneously against the
pre-assignment map, applied to a single value. -/
def resolveVal (m : List (String × String)) (v : String) : String :=
  (lookupFirst m v).getD v

/-- The single simultaneous resolution pass over all entries
(simplify_network.py lines 38–39). -/
def resolveOnce (m : List (String × String)) : List (String × String) :=
  m.map (fun p => (p.1, resolveVal m p.2))

/-- Identity mapping for a list of ids; models
`missing = pd.Series(missing_buses_i, missing_buses_i)`. -/
def identityFor (l : List String) : List (String × String) :=
  l.map (fun b => (b, b))

/-- The stage-1 transformer-contraction busmap built inside
`simplify_network_to_voltage_level` (simplify_network.py lines 36–42):
seed the map with `bus0 → bus1` of every transformer, keep the first entry
per `bus0`, apply one resolution pass, then extend by the identity on all
network buses that are not keys.  (`Index.difference` sorts its result;
ordering of the identity tail is irrelevant to every lookup property
considered here.) -/
def simplify_network_trafo_map (transformers : List (String × String))
    (buses : List String) : List (String × String) :=
  resolveOnce (dedupKeepFirst transformers) ++
    identityFor (buses.filter
      (fun b => (lookupFirst (resolveOnce (dedupKeepFirst transformers)) b).isNone))

/-- Busmap composition in `__main__`
(`reduce(lambda x, y: x.map(y), busmaps[1:], busmaps[0])`,
simplify_network.py line 137): pandas `Series.map` keeps every index entry
and yields NaN (`none`) for values absent from the second map's keys. -/
def composeBusmaps (m1 : List (String × String)) (m2 : List (String × String)) :
    List (String × Option String) :=
  m1.map (fun p => (p.1, lookupFirst m2 p.2))

/-- A busmap is idempotent when every value that is itself a key maps to
itself: looking the map up again on any value in its range returns that
same id. -/
def mapIdempotentB (m : List (String × String)) : Bool :=
  m.all (fun p =>
    match lookupFirst m p.2 with
    | some w => w == p.2
    | none => true)

/-- The transformer relation has chain depth at most two: no entry's value
leads, via the map, to yet another key.  (This also rules out 1- and
2-cycles.) -/
def chainDepthLe2 (m : List (String × String)) : Bool :=
  m.all (fun p =>
    match lookupFirst m p.2 with
    | some w => (lookupFirst m w).isNone
    | none => true)

/-! ## Lookup lemmas -/

theorem lookupFirst_append_some {β : Type} {a : List (String × β)} (b : List (String × β))
    {k : String} {v : β} (h : lookupFirst a k = some v) :
    lookupFirst (a ++ b) k = some v := by
  induction a with
  | nil => simp [lookupFirst] at h
  | cons p rest ih =>
    simp only [lookupFirst, List.cons_append] at h ⊢
    by_cases hp : p.1 = k
    · simpa [hp] using h
    · rw [if_neg hp] at h ⊢
      exact ih h

theorem lookupFirst_append_none {β : Type} {a : List (String × β)} (b : List (String × β))
    {k : String} (h : lookupFirst a k = none) :
    lookupFirst (a ++ b) k = lookupFirst b k := by
  induction a with
  | nil => rfl
  | cons p rest ih =>
    simp only [lookupFirst, List.cons_append] at h ⊢
    by_cases hp : p.1 = k
    · rw [if_pos hp] at h; exact absurd h (by simp)
    · rw [if_neg hp] at h ⊢
      exact ih h

theorem lookupFirst_map_pair {β γ : Type} (g : String → β → γ) (m : List (String × β))
    (k : String) :
    lookupFirst (m.map (fun p => (p.1, g p.1 p.2))) k = (lookupFirst m k).map (g k) := by
  induction m with
  | nil => rfl
  | cons p rest ih =>
    simp only [List.map_cons, lookupFirst]
    by_cases hp : p.1 = k
    · subst hp; simp
    · rw [if_neg hp, if_neg hp, ih]

theorem lookupFirst_isSome_iff {β : Type} {m : List (String × β)} {k : String} :
    (lookupFirst m k).isSome = true ↔ k ∈ m.map Prod.fst := by
  induction m with
  | nil => simp [lookupFirst]
  | cons p rest ih =>
    simp only [lookupFirst, List.map_cons, List.mem_cons]
    by_cases hp : p.1 = k
    · simp [hp]
    · rw [if_neg hp]
      simp only [ih]
      constructor
      · exact Or.inr
      · rintro (h | h)
        · exact absurd h.symm hp
        · exact h

theorem mem_of_lookupFirst {β : Type} {m : List (String × β)} {k : String} {v : β}
    (h : lookupFirst m k = some v) : (k, v) ∈ m := by
  induction m with
  | nil => simp [lookupFirst] at h
  | cons p rest ih =>
    simp only [lookupFirst] at h
    by_cases hp : p.1 = k
    · rw [if_pos hp] at h
      injection h with h2
      have hpv : p = (k, v) := by
        cases p
        simp only at hp h2
        simp [hp, h2]
      rw [← hpv]
      exact List.mem_cons_self _ _
    · rw [if_neg hp] at h
      exact List.mem_cons_of_mem _ (ih h)

theorem lookupFirst_identityFor_eq {l : List String} {k w : String}
    (h : lookupFirst (identityFor l) k = some w) : w = k := by
  induction l with
  | nil => simp [identityFor, lookupFirst] at h
  | cons a rest ih =>
    simp only [identityFor, List.map_cons, lookupFirst] at h
    by_cases ha : a = k
    · rw [if_pos ha] at h
      cases h
      exact ha
    · rw [if_neg ha] at h
      exact ih h

theorem lookupFirst_identityFor_mem {l : List String} {k : String} (h : k ∈ l) :
    lookupFirst (identityFor l) k = some k := by
  induction l with
  | nil => simp at h
  | cons a rest ih =>
    simp only [identityFor, List.map_cons, lookupFirst]
    by_cases ha : a = k
    · subst ha; simp
    · rw [if_neg ha]
      rcases List.mem_cons.1 h with h' | h'
      · exact absurd h'.symm ha
      · exact ih h'

theorem lookupFirst_resolveOnce (m : List (String × String)) (k : String) :
    lookupFirst (resolveOnce m) k = (lookupFirst m k).map (resolveVal m) := by
  simpa using lookupFirst_map_pair (fun _ v => resolveVal m v) m k

/-! ## Deduplication lemmas -/

theorem lookupFirst_dedupKeepFirstAux (m : List (String × String)) (seen : List String)
    (k : String) (hk : k ∉ seen) :
    lookupFirst (dedupKeepFirstAux seen m) k = lookupFirst m k := by
  induction m generalizing seen with
  | nil => rfl
  | cons p rest ih =>
    simp only [dedupKeepFirstAux]
    by_cases hp : p.1 ∈ seen
    · rw [if_pos hp, ih seen hk]
      simp only [lookupFirst]
      have hpk : ¬ p.1 = k := fun he => hk (he ▸ hp)
      rw [if_neg hpk]
    · rw [if_neg hp]
      simp only [lookupFirst]
      by_cases hpk : p.1 = k
      · rw [if_pos hpk, if_pos hpk]
      · rw [if_neg hpk, if_neg hpk]
        exact ih (p.1 :: seen) (by
          intro hmem
          rcases List.mem_cons.1 hmem with h' | h'
          · exact hpk h'.symm
          · exact hk h')

theorem lookupFirst_dedupKeepFirst (m : List (String × String)) (k : String) :
    lookupFirst (dedupKeepFirst m) k = lookupFirst m k :=
  lookupFirst_dedupKeepFirstAux m [] k (by simp)

theorem dedupKeepFirstAux_keys_nodup (m : List (String × String)) (seen : List String) :
    ((dedupKeepFirstAux seen m).map Prod.fst).Nodup ∧
      ∀ k ∈ (dedupKeepFirstAux seen m).map Prod.fst, k ∉ seen := by
  induction m generalizing seen with
  | nil => simp [dedupKeepFirstAux]
  | cons p rest ih =>
    simp only [dedupKeepFirstAux]
    by_cases hp : p.1 ∈ seen
    · rw [if_pos hp]
      exact ih seen
    · rw [if_neg hp]
      obtain ⟨hnd, hdis⟩ := ih (p.1 :: seen)
      refine ⟨?_, ?_⟩
      · simp only [List.map_cons, List.nodup_cons]
        exact ⟨fun hmem => (hdis p.1 hmem) (List.mem_cons_self _ _), hnd⟩
      · intro k hk
        simp only [List.map_cons, List.mem_cons] at hk
        rcases hk with hk | hk
        · exact hk ▸ hp
        · intro hks
          exact hdis k hk (List.mem_cons_of_mem _ hks)

theorem dedupKeepFirstAux_idem (m : List (String × String)) (seen : List String) :
    dedupKeepFirstAux seen (dedupKeepFirstAux seen m) = dedupKeepFirstAux seen m := by
  induction m generalizing seen with
  | nil => rfl
  | cons p rest ih =>
    by_cases hp : p.1 ∈ seen
    · simp only [dedupKeepFirstAux, if_pos hp]
      exact ih seen
    · simp only [dedupKeepFirstAux, if_neg hp]
      rw [ih (p.1 :: seen)]

theorem dedupKeepFirst_idem (m : List (String × String)) :
    dedupKeepFirst (dedupKeepFirst m) = dedupKeepFirst m :=
  dedupKeepFirstAux_idem m []

/-! ## Key-preservation lemmas -/

theorem keys_map_pair {β γ : Type} (g : String → β → γ) (m : List (String × β)) :
    (m.map (fun p => (p.1, g p.1 p.2))).map Prod.fst = m.map Prod.fst := by
  induction m with
  | nil => rfl
  | cons p rest ih => simp [ih]

theorem keys_identityFor (l : List String) : (identityFor l).map Prod.fst = l := by
  induction l with
  | nil => rfl
  | cons a rest ih => simp [identityFor] at ih ⊢; exact ih

theorem keys_resolveOnce (m : List (String × String)) :
    (resolveOnce m).map Prod.fst = m.map Prod.fst := by
  exact keys_map_pair (fun _ v => resolveVal m v) m

/-! ## Idempotence of the stage-1 map for short transformer chains -/

/-- When chains have depth at most two, the value written by the resolution
pass is never a key of the deduplicated map. -/
theorem resolveVal_not_key {m0 : List (String × String)} (h : chainDepthLe2 m0 = true)
    {q : String × String} (hq : q ∈ m0) :
    lookupFirst m0 (resolveVal m0 q.2) = none := by
  have hall := List.all_eq_true.1 h q hq
  unfold resolveVal
  cases hlk : lookupFirst m0 q.2 with
  | none =>
    simpa using hlk
  | some u =>
    simp only [hlk] at hall
    simp only [Option.getD_some]
    exact Option.isNone_iff_eq_none.1 hall

theorem mapIdempotentB_aux (m0 : List (String × String)) (buses : List String)
    (h : chainDepthLe2 m0 = true) :
    mapIdempotentB (resolveOnce m0 ++
      identityFor (buses.filter
        (fun b => (lookupFirst (resolveOnce m0) b).isNone))) = true := by
  simp only [mapIdempotentB, List.all_eq_true]
  intro p hp
  rcases List.mem_append.1 hp with hp1 | hp2
  · simp only [resolveOnce, List.mem_map] at hp1
    rcases hp1 with ⟨q, hq, hqe⟩
    subst hqe
    simp only
    have hkey1 : lookupFirst (resolveOnce m0) (resolveVal m0 q.2) = none := by
      rw [lookupFirst_resolveOnce, resolveVal_not_key h hq]
      rfl
    rw [lookupFirst_append_none _ hkey1]
    cases hid : lookupFirst
        (identityFor (buses.filter
          (fun b => (lookupFirst (resolveOnce m0) b).isNone)))
        (resolveVal m0 q.2) with
    | none => rfl
    | some w => simp [lookupFirst_identityFor_eq hid]
  · simp only [identityFor, List.mem_map] at hp2
    rcases hp2 with ⟨b, hb, hbe⟩
    subst hbe
    simp only
    obtain ⟨hbuses, hnone⟩ := List.mem_filter.1 hb
    have hlk1 : lookupFirst (resolveOnce m0) b = none :=
      Option.isNone_iff_eq_none.1 hnone
    rw [lookupFirst_append_none _ hlk1, lookupFirst_identityFor_mem hb]
    simp

/-- C1 (counterexample): for the transformer chain A→B→C→D the single
resolution pass of `simplify_network_to_voltage_level` yields a stage-1 map
that is not transitively closed: A maps to C while C maps on to D, so
looking the map up again on the range value C does not return C. -/
theorem trafo_map_not_idempotent_chain3 :
    mapIdempotentB (simplify_network_trafo_map
      [("A","B"),("B","C"),("C","D")] ["A","B","C","D"]) = false
  ∧ lookupFirst (simplify_network_trafo_map
      [("A","B"),("B","C"),("C","D")] ["A","B","C","D"]) "A" = some "C"
  ∧ lookupFirst (simplify_network_trafo_map
      [("A","B"),("B","C"),("C","D")] ["A","B","C","D"]) "C" = some "D" :=
  ⟨by decide, by decide, by decide⟩

/-- C1 (amended): the stage-1 transformer-contraction map applies exactly one
simultaneous resolution pass; it is idempotent (every id in its range resolves
to its terminal in at most one hop) for every network whose transformer
chains have depth at most two, i.e. whenever no transformer target is itself
the start of a further transformer hop after deduplication. -/
theorem trafo_map_idempotent_of_short_chains (tr : List (String × String))
    (buses : List String) (h : chainDepthLe2 (dedupKeepFirst tr) = true) :
    mapIdempotentB (simplify_network_trafo_map tr buses) = true := by
  unfold simplify_network_trafo_map
  exact mapIdempotentB_aux (dedupKeepFirst tr) buses h

/-- Witness for C1: the two-transformer chain A→B→C satisfies the
chain-depth hypothesis and its stage-1 map is idempotent. -/
theorem trafo_map_idempotent_of_short_chains_witness :
    chainDepthLe2 (dedupKeepFirst [("A","B"),("B","C")]) = true
  ∧ mapIdempotentB (simplify_network_trafo_map [("A","B"),("B","C")] ["A","B","C"]) = true :=
  ⟨by decide,
   trafo_map_idempotent_of_short_chains [("A","B"),("B","C")] ["A","B","C"] (by decide)⟩

/-- C7: the transformer chain A→B→C contracts to the stage-1 map
{A:C, B:C, C:C}, and composing it with the stage-2 table {C: SUB1} yields
{A:SUB1, B:SUB1, C:SUB1}. -/
theorem scenario_b_composed_map :
    simplify_network_trafo_map [("A","B"),("B","C")] ["A","B","C"]
      = [("A","C"),("B","C"),("C","C")]
  ∧ composeBusmaps (simplify_network_trafo_map [("A","B"),("B","C")] ["A","B","C"])
      [("C","SUB1")]
      = [("A", some "SUB1"), ("B", some "SUB1"), ("C", some "SUB1")] :=
  ⟨by decide, by decide⟩

/-- C3 (counterexample): composing a stage-1 map whose range value is absent
from the stage-2 table does not fail: it silently produces unresolved (NaN)
entries, here {A: none, B: none} from stage-2 table {}. -/
theorem compose_missing_key_silent_nan :
    composeBusmaps (simplify_network_trafo_map [("A","B")] ["A","B"]) []
      = [("A", none), ("B", none)] := by
  decide

/-- C3 (amended): busmap composition is total on keys — every input id
appears as a key of the composed map — but an id whose stage-1 image is
missing from the stage-2 keys receives a missing (NaN / `none`) value
rather than raising an error. -/
theorem composeBusmaps_total_and_nan_on_missing (m1 m2 : List (String × String)) :
    (composeBusmaps m1 m2).map Prod.fst = m1.map Prod.fst
  ∧ ∀ p ∈ m1, lookupFirst m2 p.2 = none →
      (p.1, (none : Option String)) ∈ composeBusmaps m1 m2 := by
  constructor
  · exact keys_map_pair (fun _ v => lookupFirst m2 v) m1
  · intro p hp hnone
    have hmem : (p.1, lookupFirst m2 p.2) ∈ composeBusmaps m1 m2 :=
      List.mem_map.2 ⟨p, hp, rfl⟩
    rwa [hnone] at hmem

/-- Witness for C3: a concrete id whose stage-1 image is missing from the
stage-2 table appears in the composed map with a `none` value. -/
theorem composeBusmaps_total_witness :
    (("A", "B") ∈ [(("A" : String), ("B" : String))])
  ∧ lookupFirst ([] : List (String × String)) "B" = none
  ∧ ("A", (none : Option String)) ∈ composeBusmaps [("A","B")] [] :=
  ⟨by decide, rfl,
   (composeBusmaps_total_and_nan_on_missing [("A","B")] []).2 ("A","B") (by decide) rfl⟩

/-- C10: duplicated low-voltage endpoints keep only the first transformer's
mapping — deduplication preserves the first-match lookup, replacing the
transformer table by its deduplication does not change the stage-1 map, and
(for a duplicate-free bus index) the stage-1 map has no duplicate keys, i.e.
assigns exactly one target id to every bus0. -/
theorem trafo_map_first_transformer_wins (tr : List (String × String))
    (buses : List String) (b : String) (hb : buses.Nodup) :
    lookupFirst (dedupKeepFirst tr) b = lookupFirst tr b
  ∧ simplify_network_trafo_map (dedupKeepFirst tr) buses
      = simplify_network_trafo_map tr buses
  ∧ ((simplify_network_trafo_map tr buses).map Prod.fst).Nodup := by
  refine ⟨lookupFirst_dedupKeepFirst tr b, ?_, ?_⟩
  · unfold simplify_network_trafo_map
    rw [dedupKeepFirst_idem]
  · unfold simplify_network_trafo_map
    rw [List.map_append, keys_identityFor, keys_resolveOnce]
    rw [List.nodup_append]
    refine ⟨(dedupKeepFirstAux_keys_nodup tr []).1, hb.filter _, ?_⟩
    intro k hk1 hk2
    obtain ⟨hkb, hkn⟩ := List.mem_filter.1 hk2
    have hsome : (lookupFirst (resolveOnce (dedupKeepFirst tr)) k).isSome = true := by
      rw [lookupFirst_isSome_iff, keys_resolveOnce]
      exact hk1
    rw [Option.isNone_iff_eq_none.1 hkn] at hsome
    exact absurd hsome (by simp)

/-! ## Region Assembler: authority-mode orphan pruning
(build_bus_regions.py lines 210–212) -/

/-- The slice of the network state touched by the authority-mode pruning
step: buses carry their `country` (zone) column, lines their `bus0`/`bus1`
endpoints, loads their `bus` reference. -/
structure ZoneNetwork where
  buses : List (String × String)
  lines : List (String × String × String)
  loads : List (String × String)
deriving DecidableEq

/-- Ids of buses whose zone column still equals the default placeholder
`"US"` after onshore and offshore assignment
(`n.buses.loc[n.buses.country=='US'].index`). -/
def unassignedBuses (n : ZoneNetwork) : List String :=
  (n.buses.filter (fun b => b.2 = "US")).map Prod.fst

/-- The removal block closing authority mode (build_bus_regions.py lines
210–212): `mremove` drops the lines whose `bus1` is an unassigned bus, the
loads whose `bus` is unassigned, and the unassigned buses themselves. -/
def removeUnassigned (n : ZoneNetwork) : ZoneNetwork :=
  { buses := n.buses.filter (fun b => ¬ b.2 = "US")
    lines := n.lines.filter (fun l => ¬ l.2.2 ∈ unassignedBuses n)
    loads := n.loads.filter (fun d => ¬ d.2 ∈ unassignedBuses n) }

/-- A two-bus network in which a line leaves an unassigned bus (`bus0`)
towards an assigned one (`bus1`). -/
def danglingNet : ZoneNetwork :=
  { buses := [("b1", "US"), ("b2", "CISO-SDGE")]
    lines := [("L", "b1", "b2")]
    loads := [] }

/-- C2 (counterexample): pruning only tests `bus1`, so the line L — whose
`bus0` endpoint b1 is an unassigned, removed bus — survives the removal
step and is left referencing a bus that no longer exists. -/
theorem remove_unassigned_keeps_dangling_bus0 :
    ("L", "b1", "b2") ∈ (removeUnassigned danglingNet).lines
  ∧ "b1" ∈ unassignedBuses danglingNet
  ∧ ∀ b ∈ (removeUnassigned danglingNet).buses, b.1 ≠ "b1" :=
  ⟨by decide, by decide, by decide⟩

/-- C2 (amended): after the removal step every retained bus has a zone other
than the placeholder, no retained load references an unassigned bus, no
retained line's **bus1** endpoint references an unassigned bus (the `bus0`
endpoint is not checked by the code), and every line whose bus1 is assigned
is retained. -/
theorem removeUnassigned_spec (n : ZoneNetwork) :
    (∀ b ∈ (removeUnassigned n).buses, b.2 ≠ "US")
  ∧ (∀ l ∈ (removeUnassigned n).lines, l.2.2 ∉ unassignedBuses n)
  ∧ (∀ d ∈ (removeUnassigned n).loads, d.2 ∉ unassignedBuses n)
  ∧ (∀ l ∈ n.lines, l.2.2 ∉ unassignedBuses n → l ∈ (removeUnassigned n).lines) := by
  refine ⟨?_, ?_, ?_, ?_⟩
  · intro b hb
    have hpb := List.of_mem_filter hb
    simpa using hpb
  · intro l hl
    have hpl := List.of_mem_filter hl
    simpa using hpl
  · intro d hd
    have hpd := List.of_mem_filter hd
    simpa using hpd
  · intro l hl hnot
    exact List.mem_filter_of_mem hl (by simpa using hnot)

/-- A network exercising each pruning guarantee on concrete data. -/
def prunedNet : ZoneNetwork :=
  { buses := [("b1", "US"), ("b2", "CISO-SDGE")]
    lines := [("K", "b2", "b2")]
    loads := [("d1", "b1")] }

/-- Witness for C2: the assigned bus b2 survives with its authority zone and
the line K, whose bus1 is assigned, is retained. -/
theorem removeUnassigned_spec_witness :
    (("b2", "CISO-SDGE") ∈ (removeUnassigned prunedNet).buses
      ∧ ("b2", "CISO-SDGE").2 ≠ "US")
  ∧ (("K", "b2", "b2") ∈ prunedNet.lines
      ∧ ("K", "b2", "b2") ∈ (removeUnassigned prunedNet).lines) :=
  ⟨⟨by decide, (removeUnassigned_spec prunedNet).1 ("b2", "CISO-SDGE") (by decide)⟩,
   ⟨by decide,
    (removeUnassigned_spec prunedNet).2.2.2 ("K", "b2", "b2") (by decide) (by decide)⟩⟩

/-! ## Offshore area threshold (build_bus_regions.py lines 156 and 202) -/

/-- The fixed minimum offshore cell area `1e-2` (written `mkRat 1 100`
so that comparisons evaluate by kernel reduction). -/
def offshoreAreaMin : ℚ := mkRat 1 100

/-- The offshore region filter applied identically in country mode
(line 156) and authority mode (line 202):
`offshore_regions_c.loc[offshore_regions_c.area > 1e-2]`.  A region is the
pair of its owning bus name and its computed cell area. -/
def dropSmallOffshore (regions : List (String × ℚ)) : List (String × ℚ) :=
  regions.filter (fun r => offshoreAreaMin < r.2)

/-- C6: every offshore cell with area below the fixed 1e-2 threshold is
dropped from the output region set and every cell with area above the
threshold is retained, in both modes (which share this filter). -/
theorem offshore_area_threshold (regions : List (String × ℚ)) (r : String × ℚ)
    (hr : r ∈ regions) :
    (r.2 < offshoreAreaMin → r ∉ dropSmallOffshore regions)
  ∧ (offshoreAreaMin < r.2 → r ∈ dropSmallOffshore regions) := by
  constructor
  · intro hlt hmem
    have hgt := List.of_mem_filter hmem
    simp only [decide_eq_true_eq] at hgt
    exact absurd hgt (not_lt.2 hlt.le)
  · intro hgt
    exact List.mem_filter_of_mem hr (by simpa using hgt)

/-- Witness for C6 (Scenario D): an offshore cell of area 0.0001 is dropped. -/
theorem offshore_area_threshold_witness :
    ("cellD", mkRat 1 10000) ∈ [("cellD", mkRat 1 10000)]
  ∧ mkRat 1 10000 < offshoreAreaMin
  ∧ ("cellD", mkRat 1 10000) ∉ dropSmallOffshore [("cellD", mkRat 1 10000)] :=
  ⟨by decide, by decide,
   (offshore_area_threshold [("cellD", mkRat 1 10000)] ("cellD", mkRat 1 10000)
      (by decide)).1 (by decide)⟩

/-- Witness for C10: a bus0 shared by two transformers, with a
duplicate-free bus index. -/
theorem trafo_map_first_transformer_wins_witness :
    (["A", "B", "C"] : List String).Nodup
  ∧ lookupFirst (dedupKeepFirst [("A","B"),("A","C")]) "A"
      = lookupFirst [("A","B"),("A","C")] "A"
  ∧ ((simplify_network_trafo_map [("A","B"),("A","C")] ["A","B","C"]).map Prod.fst).Nodup :=
  ⟨by decide,
   (trafo_map_first_transformer_wins [("A","B"),("A","C")] ["A","B","C"] "A" (by decide)).1,
   (trafo_map_first_transformer_wins [("A","B"),("A","C")] ["A","B","C"] "A" (by decide)).2.2⟩

/-! ## Voronoi Partitioner (build_bus_regions.py lines 63–107) -/

/-- The result object of `scipy.spatial.Voronoi`: vertex coordinates, the
vertex-index ring of every region, and the region index assigned to every
input point. -/
structure VoronoiResult where
  vertices : List (ℚ × ℚ)
  regions : List (List Nat)
  point_region : List Nat

/-- The geometric collaborators of the partitioner — shapely polygon
construction, validity test, zero-width buffer repair, intersection — and
scipy's Voronoi construction.  They are parameters of the embedding: the
repository only wires them together. -/
structure GeoOps (G : Type) where
  polygonOf : List (ℚ × ℚ) → G
  is_valid : G → Bool
  buffer0 : G → G
  intersection : G → G → G
  voronoi : List (ℚ × ℚ) → VoronoiResult

/-- Columnwise minimum of a point list (`np.amin(points, axis=0)`); the
empty case never arises on the general branch, which runs only with at
least two points. -/
def colMin : List (ℚ × ℚ) → ℚ × ℚ
  | [] => (0, 0)
  | p :: rest => rest.foldl (fun a q => (min a.1 q.1, min a.2 q.2)) p

/-- Columnwise maximum of a point list (`np.amax(points, axis=0)`). -/
def colMax : List (ℚ × ℚ) → ℚ × ℚ
  | [] => (0, 0)
  | p :: rest => rest.foldl (fun a q => (max a.1 q.1, max a.2 q.2)) p

/-- The four synthetic guard corners framing the point cloud
(build_bus_regions.py lines 89–93), offset by three times the per-axis span
beyond the bounding box, in the source's order. -/
def guardPoints (points : List (ℚ × ℚ)) : List (ℚ × ℚ) :=
  [((colMin points).1 - 3 * ((colMax points).1 - (colMin points).1),
    (colMin points).2 - 3 * ((colMax points).2 - (colMin points).2)),
   ((colMin points).1 - 3 * ((colMax points).1 - (colMin points).1),
    (colMax points).2 + 3 * ((colMax points).2 - (colMin points).2)),
   ((colMax points).1 + 3 * ((colMax points).1 - (colMin points).1),
    (colMin points).2 - 3 * ((colMax points).2 - (colMin points).2)),
   ((colMax points).1 + 3 * ((colMax points).1 - (colMin points).1),
    (colMax points).2 + 3 * ((colMax points).2 - (colMin points).2))]

/-- The vertex ring of input point `i`:
`vor.vertices[vor.regions[vor.point_region[i]]]` (line 97). -/
def cellRing (vor : VoronoiResult) (i : Nat) : List (ℚ × ℚ) :=
  (vor.regions.getD (vor.point_region.getD i 0) []).map
    (fun j => vor.vertices.getD j (0, 0))

/-- The shapely polygon of input point `i`'s Voronoi cell. -/
def cellGeometry {G : Type} (ops : GeoOps G) (vor : VoronoiResult) (i : Nat) : G :=
  ops.polygonOf (cellRing vor i)

/-- `if not poly.is_valid: poly = poly.buffer(0)` (lines 99–100). -/
def repairIfInvalid {G : Type} (ops : GeoOps G) (g : G) : G :=
  if ops.is_valid g then g else ops.buffer0 g

/-- `voronoi_partition_pts` (build_bus_regions.py lines 63–107): one
geometry per input coordinate; a single coordinate short-circuits to the
outline, otherwise each point's cell polygon is repaired if invalid and
intersected with the outline. -/
def voronoi_partition_pts {G : Type} (ops : GeoOps G) (points : List (ℚ × ℚ))
    (outline : G) : List G :=
  if points.length = 1 then [outline]
  else
    (List.range points.length).map (fun i =>
      ops.intersection
        (repairIfInvalid ops
          (cellGeometry ops (ops.voronoi (points ++ guardPoints points)) i))
        outline)

/-- C4: for exactly one input coordinate the returned sequence is the
single geometry equal to the outline itself — no Voronoi computation and no
intersection is performed. -/
theorem voronoi_single_point {G : Type} (ops : GeoOps G) (pt : ℚ × ℚ) (outline : G) :
    voronoi_partition_pts ops [pt] outline = [outline] := rfl

/-- C5: with two or more coordinates the partitioner computes the Voronoi
diagram of the input points followed by exactly the four guard corners
(xmin−3·xspan, ymin−3·yspan), (xmin−3·xspan, ymax+3·yspan),
(xmax+3·xspan, ymin−3·yspan), (xmax+3·xspan, ymax+3·yspan), and returns one
geometry per input coordinate in input order: the point's cell vertex-ring
polygon, repaired by zero-width buffering if invalid, intersected with the
outline. -/
theorem voronoi_general_case {G : Type} (ops : GeoOps G) (points : List (ℚ × ℚ))
    (outline : G) (h : 2 ≤ points.length) :
    (voronoi_partition_pts ops points outline).length = points.length
  ∧ voronoi_partition_pts ops points outline =
      (List.range points.length).map (fun i =>
        ops.intersection
          (repairIfInvalid ops
            (cellGeometry ops
              (ops.voronoi (points ++
                [((colMin points).1 - 3 * ((colMax points).1 - (colMin points).1),
                  (colMin points).2 - 3 * ((colMax points).2 - (colMin points).2)),
                 ((colMin points).1 - 3 * ((colMax points).1 - (colMin points).1),
                  (colMax points).2 + 3 * ((colMax points).2 - (colMin points).2)),
                 ((colMax points).1 + 3 * ((colMax points).1 - (colMin points).1),
                  (colMin points).2 - 3 * ((colMax points).2 - (colMin points).2)),
                 ((colMax points).1 + 3 * ((colMax points).1 - (colMin points).1),
                  (colMax points).2 + 3 * ((colMax points).2 - (colMin points).2))]))
              i))
          outline) := by
  have hne : points.length ≠ 1 := by omega
  constructor
  · simp [voronoi_partition_pts, if_neg hne]
  · simp [voronoi_partition_pts, if_neg hne, guardPoints]

/-- A concrete instantiation of the geometric collaborators, used to
evaluate the partitioner on explicit inputs. -/
def countOps : GeoOps Nat :=
  { polygonOf := fun l => l.length
    is_valid := fun _ => true
    buffer0 := fun g => g
    intersection := fun a b => a + b
    voronoi := fun pts =>
      { vertices := pts, regions := [[0], [1]], point_region := List.range pts.length } }

/-- The two-point input of Scenario A. -/
def wPts : List (ℚ × ℚ) := [(0, 0), (2, 0)]

/-- Witness for C5: two concrete coordinates satisfy the cardinality
hypothesis and the partitioner returns one geometry per input point. -/
theorem voronoi_general_case_witness :
    2 ≤ wPts.length
  ∧ (voronoi_partition_pts countOps wPts 7).length = wPts.length :=
  ⟨by decide, (voronoi_general_case countOps wPts 7 (by decide)).1⟩

/-! ## Line-length assignment (simplify_network.py lines 98–117) -/

/-- A line or link row: endpoints and (possibly NaN) length. -/
structure Edge where
  id : String
  bus0 : String
  bus1 : String
  length : Option ℚ
deriving DecidableEq

/-- The slice of the network state `assign_line_lengths` touches: bus
coordinates (possibly NaN) and the two branch tables. -/
structure GeoNetwork where
  buses : List (String × Option (ℚ × ℚ))
  lines : List Edge
  links : List Edge
deriving DecidableEq

/-- Coordinate replacement (simplify_network.py lines 100–103): every bus
takes the longitude/latitude of the substation its `sub_id` maps to; a
lookup that fails at either stage produces NaN (`none`), mirroring pandas
alignment and `Series.map`. -/
def replaceBusCoords (buses : List (String × Option (ℚ × ℚ)))
    (busmapToSub : List (String × String))
    (substations : List (String × ℚ × ℚ)) : List (String × Option (ℚ × ℚ)) :=
  buses.map (fun b =>
    (b.1, (lookupFirst busmapToSub b.1).bind (fun s => lookupFirst substations s)))

/-- `pypsa.geo.haversine_pts` lifted to possibly-NaN coordinates: a NaN
endpoint yields a NaN distance. -/
def haversineOpt (hav : (ℚ × ℚ) → (ℚ × ℚ) → ℚ) :
    Option (ℚ × ℚ) → Option (ℚ × ℚ) → Option ℚ
  | some a, some b => some (hav a b)
  | _, _ => none

/-- Rewrites every edge's length to the haversine distance between its
endpoint coordinates times the length factor
(`n.lines.length = haversine_pts(...)`, `n.lines.length *= factor`,
lines 107–115).  `n.buses.loc[...]` raises on a missing bus id, modelled by
`none`. -/
def setEdgeLengths (hav : (ℚ × ℚ) → (ℚ × ℚ) → ℚ) (factor : ℚ)
    (buses : List (String × Option (ℚ × ℚ))) : List Edge → Option (List Edge)
  | [] => some []
  | e :: rest =>
    (lookupFirst buses e.bus0).bind (fun c0 =>
      (lookupFirst buses e.bus1).bind (fun c1 =>
        (setEdgeLengths hav factor buses rest).map
          (fun rest2 =>
            { e with length := (haversineOpt hav c0 c1).map (fun d => d * factor) }
              :: rest2)))

/-- `assign_line_lengths` with both `busmap_to_sub` and `substations`
supplied, as called at simplify_network.py line 142. -/
def assign_line_lengths (hav : (ℚ × ℚ) → (ℚ × ℚ) → ℚ) (n : GeoNetwork)
    (line_length_factor : ℚ) (busmapToSub : List (String × String))
    (substations : List (String × ℚ × ℚ)) : Option GeoNetwork :=
  (setEdgeLengths hav line_length_factor
      (replaceBusCoords n.buses busmapToSub substations) n.lines).bind
    (fun lines2 =>
      (setEdgeLengths hav line_length_factor
          (replaceBusCoords n.buses busmapToSub substations) n.links).map
        (fun links2 =>
          { buses := replaceBusCoords n.buses busmapToSub substations
            lines := lines2
            links := links2 }))

theorem setEdgeLengths_length_spec (hav : (ℚ × ℚ) → (ℚ × ℚ) → ℚ) (factor : ℚ)
    (buses : List (String × Option (ℚ × ℚ))) :
    ∀ es es2, setEdgeLengths hav factor buses es = some es2 →
      ∀ e ∈ es2, ∀ c0 c1 : ℚ × ℚ,
        lookupFirst buses e.bus0 = some (some c0) →
        lookupFirst buses e.bus1 = some (some c1) →
        e.length = some (hav c0 c1 * factor) := by
  intro es
  induction es with
  | nil =>
    intro es2 h e he c0 c1 h0 h1
    simp only [setEdgeLengths] at h
    cases h
    simp at he
  | cons a rest ih =>
    intro es2 h e he c0 c1 h0 h1
    simp only [setEdgeLengths] at h
    rcases Option.bind_eq_some.1 h with ⟨b0, hb0, h'⟩
    rcases Option.bind_eq_some.1 h' with ⟨b1, hb1, h''⟩
    rcases Option.map_eq_some'.1 h'' with ⟨rest2, hrest, rfl⟩
    rcases List.mem_cons.1 he with he1 | he2
    · subst he1
      simp only at h0 h1
      rw [hb0] at h0
      rw [hb1] at h1
      injection h0 with h0e
      injection h1 with h1e
      subst h0e
      subst h1e
      simp [haversineOpt, mul_comm]
    · exact ih rest2 hrest e he2 c0 c1 h0 h1

/-- C8: whenever `assign_line_lengths` (called with the substation table)
succeeds, the buses carry the substation longitudes/latitudes, and every
line's and every link's length equals the haversine distance between its
two (new) endpoint coordinates multiplied by the length-inflation
factor. -/
theorem assign_line_lengths_spec (hav : (ℚ × ℚ) → (ℚ × ℚ) → ℚ) (n : GeoNetwork)
    (factor : ℚ) (busmapToSub : List (String × String))
    (substations : List (String × ℚ × ℚ)) (n2 : GeoNetwork)
    (h : assign_line_lengths hav n factor busmapToSub substations = some n2) :
    n2.buses = replaceBusCoords n.buses busmapToSub substations
  ∧ (∀ e ∈ n2.lines, ∀ c0 c1 : ℚ × ℚ,
      lookupFirst n2.buses e.bus0 = some (some c0) →
      lookupFirst n2.buses e.bus1 = some (some c1) →
      e.length = some (hav c0 c1 * factor))
  ∧ (∀ e ∈ n2.links, ∀ c0 c1 : ℚ × ℚ,
      lookupFirst n2.buses e.bus0 = some (some c0) →
      lookupFirst n2.buses e.bus1 = some (some c1) →
      e.length = some (hav c0 c1 * factor)) := by
  unfold assign_line_lengths at h
  rcases Option.bind_eq_some.1 h with ⟨lines2, hl, h2⟩
  rcases Option.map_eq_some'.1 h2 with ⟨links2, hk, rfl⟩
  refine ⟨rfl, ?_, ?_⟩
  · intro e he c0 c1 h0 h1
    exact setEdgeLengths_length_spec hav factor _ n.lines lines2 hl e he c0 c1 h0 h1
  · intro e he c0 c1 h0 h1
    exact setEdgeLengths_length_spec hav factor _ n.links links2 hk e he c0 c1 h0 h1

/-- A concrete stand-in for the haversine collaborator. -/
def wHav : (ℚ × ℚ) → (ℚ × ℚ) → ℚ := fun a b => a.1 + a.2 + b.1 + b.2

/-- A one-line network whose bus coordinates start out missing. -/
def wGeoNet : GeoNetwork :=
  { buses := [("u", none), ("v", none)]
    lines := [⟨"L", "u", "v", none⟩]
    links := [] }

/-- The expected output network of the C8 witness; the length is kept in
the symbolic form `wHav (1,2) (3,4) * 2` (core rational arithmetic is
irreducible, so the concrete value is stated up to that arithmetic). -/
def wGeoNet2 : GeoNetwork :=
  { buses := [("u", some (1, 2)), ("v", some (3, 4))]
    lines := [⟨"L", "u", "v", some (wHav (1, 2) (3, 4) * 2)⟩]
    links := [] }

/-- Witness for C8: a concrete run replaces coordinates from the substation
table and sets the line length to haversine times the factor. -/
theorem assign_line_lengths_spec_witness :
    assign_line_lengths wHav wGeoNet 2 [("u", "S1"), ("v", "S2")]
        [("S1", (1, 2)), ("S2", (3, 4))] = some wGeoNet2
  ∧ (⟨"L", "u", "v", some (wHav (1, 2) (3, 4) * 2)⟩ : Edge) ∈ wGeoNet2.lines
  ∧ (⟨"L", "u", "v", some (wHav (1, 2) (3, 4) * 2)⟩ : Edge).length
      = some (wHav (1, 2) (3, 4) * 2) :=
  ⟨rfl, List.mem_cons_self _ _,
   (assign_line_lengths_spec wHav wGeoNet 2 [("u", "S1"), ("v", "S2")]
       [("S1", (1, 2)), ("S2", (3, 4))] wGeoNet2 rfl).2.1
     ⟨"L", "u", "v", some (wHav (1, 2) (3, 4) * 2)⟩ (List.mem_cons_self _ _)
     (1, 2) (3, 4) (by decide) (by decide)⟩

/-! ## The composed busmap is dead after construction
(simplify_network.py lines 136–147) -/

/-- The tail of `__main__` after the composed busmap is built (lines
139–145): line-length assignment with factor 1.25 followed by substation
aggregation.  The aggregation (`get_clustering_from_busmap` plus the column
overwrites of `aggregate_to_substations`) is an external collaborator,
passed as `agg`; faithful to line 145 it receives the stage-2
`busmap_to_sub.sub_id` column, the substation table and the `use_ba_zones`
flag — the composed busmap is not among its arguments. -/
def pipeline_after_compose {A : Type}
    (agg : GeoNetwork → List (String × ℚ × ℚ) → List (String × String) → Bool → A)
    (hav : (ℚ × ℚ) → (ℚ × ℚ) → ℚ)
    (composedBusmap : List (String × Option String))
    (n : GeoNetwork) (busmapToSub : List (String × String))
    (substations : List (String × ℚ × ℚ)) (use_ba_zones : Bool) : Option A :=
  (assign_line_lengths hav n (mkRat 5 4) busmapToSub substations).map
    (fun n2 => agg n2 substations busmapToSub use_ba_zones)

/-- The `__main__` flow of simplify_network.py from stage-1 contraction to
the aggregated network: build `trafo_map` (line 127), compose it with the
stage-2 `sub_id` column (lines 136–137), then run the rest of the
pipeline on the composed map and the remaining inputs. -/
def simplify_main {A : Type}
    (agg : GeoNetwork → List (String × ℚ × ℚ) → List (String × String) → Bool → A)
    (hav : (ℚ × ℚ) → (ℚ × ℚ) → ℚ)
    (transformers : List (String × String)) (busIds : List String)
    (n : GeoNetwork) (busmapToSub : List (String × String))
    (substations : List (String × ℚ × ℚ)) (use_ba_zones : Bool) : Option A :=
  pipeline_after_compose agg hav
    (composeBusmaps (simplify_network_trafo_map transformers busIds) busmapToSub)
    n busmapToSub substations use_ba_zones

/-- C9: the composed busmap built at line 137 is never consulted by any
later step — the main flow factors through `pipeline_after_compose`, and
that remainder produces an identical exported network for any two values of
the composed map, all other inputs equal. -/
theorem composed_busmap_never_consulted {A : Type}
    (agg : GeoNetwork → List (String × ℚ × ℚ) → List (String × String) → Bool → A)
    (hav : (ℚ × ℚ) → (ℚ × ℚ) → ℚ)
    (transformers : List (String × String)) (busIds : List String)
    (c1 c2 : List (String × Option String)) (n : GeoNetwork)
    (busmapToSub : List (String × String)) (substations : List (String × ℚ × ℚ))
    (use_ba_zones : Bool) :
    simplify_main agg hav transformers busIds n busmapToSub substations use_ba_zones
      = pipeline_after_compose agg hav c1 n busmapToSub substations use_ba_zones
  ∧ pipeline_after_compose agg hav c1 n busmapToSub substations use_ba_zones
      = pipeline_after_compose agg hav c2 n busmapToSub substations use_ba_zones :=
  ⟨rfl, rfl⟩

end PypsaUsa
